import Mathlib

/-!
Shallow embedding of `src/get_stat_repo.py`, a GitHub repository statistics
reporter.  Pure functions of the source become Lean functions; the process
exit and uncaught Python exceptions become explicit outcome constructors;
writes to the `error.log` file become an explicit list of log operations,
each tagged with the file mode it was opened with (append vs truncate).
Python `datetime` instants are embedded as a `Date` record of calendar
fields; comparison of two instants is comparison of the (injective on
valid dates) second count since the proleptic-Gregorian era, which agrees
with `datetime`'s field-lexicographic order on the valid dates produced by
the parser.
-/

/-- How a Python exception escaping an expression is embedded:
`keyError k` models `KeyError(k)` from a missing dict key, `typeError`
models `TypeError` (e.g. indexing a `str` with a `str`), `valueError`
models `ValueError` from `datetime.strptime` on a non-matching string. -/
inductive PyError where
  | keyError (k : String)
  | typeError
  | valueError
deriving DecidableEq, Repr

/-- One write to `error.log`.  `append` is `open('error.log', 'a')` as done
by `write_log`; `truncateWrite` is `open('error.log', 'w')` as done inline
in `get_count`.  The wall-clock timestamp that `write_log` prepends to the
event text is not modelled; only the event text is kept. -/
inductive LogOp where
  | append (s : String)
  | truncateWrite (s : String)
deriving DecidableEq, Repr

/-- Embeds `write_log(event)` from the source: an append-mode write of the
event to `error.log` (timestamp prefix abstracted away). -/
def write_log (event : String) : LogOp := LogOp.append event

/-- A `datetime.datetime` value: the six calendar fields read and compared
by the program. -/
structure Date where
  year : Nat
  month : Nat
  day : Nat
  hour : Nat
  minute : Nat
  second : Nat
deriving DecidableEq, Repr

/-- Gregorian leap-year rule, as used by `datetime`'s calendar validation. -/
def isLeap (y : Nat) : Bool := y % 4 == 0 && (y % 100 != 0 || y % 400 == 0)

/-- Length of a month, as used by `datetime`'s day-of-month validation. -/
def daysInMonth (y m : Nat) : Nat :=
  if m = 2 then (if isLeap y then 29 else 28)
  else if m = 4 ∨ m = 6 ∨ m = 9 ∨ m = 11 then 30
  else 31

/-- The field ranges `datetime.datetime(...)` accepts (`MINYEAR = 1`,
`MAXYEAR = 9999`); `datetime.strptime` raises `ValueError` outside them. -/
def validDate (d : Date) : Bool :=
  1 ≤ d.year && d.year ≤ 9999 &&
  1 ≤ d.month && d.month ≤ 12 &&
  1 ≤ d.day && d.day ≤ daysInMonth d.year d.month &&
  d.hour ≤ 23 && d.minute ≤ 59 && d.second ≤ 59

/-- Days since 0000-03-01 of a civil date (standard era/year-of-era
computation, valid for year ≥ 1).  Used to give each `Date` its instant
on a single second-counted timeline. -/
def daysFromCivil (y m d : Nat) : Nat :=
  let y2 := if m ≤ 2 then y - 1 else y
  let era := y2 / 400
  let yoe := y2 % 400
  let mp := (m + 9) % 12
  let doy := (153 * mp + 2) / 5 + d - 1
  let doe := yoe * 365 + yoe / 4 - yoe / 100 + doy
  era * 146097 + doe

/-- The instant a `Date` denotes, in seconds on the civil timeline.
Comparison of `datetime` values in the source is embedded as comparison
of these second counts. -/
def toSec (d : Date) : Nat :=
  86400 * daysFromCivil d.year d.month d.day
    + 3600 * d.hour + 60 * d.minute + d.second

/-- `a <= b` on `datetime` values. -/
def dateLe (a b : Date) : Bool := decide (toSec a ≤ toSec b)

/-- The numeric value of an ASCII digit character, `none` otherwise. -/
def digitVal (c : Char) : Option Nat :=
  if 48 ≤ c.toNat ∧ c.toNat ≤ 57 then some (c.toNat - 48) else none

/-- Reads exactly two digit characters as a two-digit number. -/
def read2 : List Char → Option (Nat × List Char)
  | a :: b :: rest =>
    match digitVal a, digitVal b with
    | some x, some y => some (10 * x + y, rest)
    | _, _ => none
  | _ => none

/-- Reads exactly four digit characters as a four-digit number
(the `%Y` directive of `strptime` matches exactly four digits). -/
def read4 : List Char → Option (Nat × List Char)
  | a :: b :: c :: d :: rest =>
    match digitVal a, digitVal b, digitVal c, digitVal d with
    | some w, some x, some y, some z => some (1000 * w + 100 * x + 10 * y + z, rest)
    | _, _, _, _ => none
  | _ => none

/-- Consumes one expected literal character. -/
def expectCh (c : Char) : List Char → Option (List Char)
  | a :: rest => if a = c then some rest else none
  | _ => none

/-- Parses the character list of a timestamp in the fixed pattern
`YYYY-MM-DDTHH:MM:SSZ` and validates the fields the way
`datetime.strptime(s, "%Y-%m-%dT%H:%M:%SZ")` does, returning `none`
where Python raises `ValueError`. -/
def parseChars (cs : List Char) : Option Date := do
  let (y, cs) ← read4 cs
  let cs ← expectCh '-' cs
  let (mo, cs) ← read2 cs
  let cs ← expectCh '-' cs
  let (dy, cs) ← read2 cs
  let cs ← expectCh 'T' cs
  let (h, cs) ← read2 cs
  let cs ← expectCh ':' cs
  let (mi, cs) ← read2 cs
  let cs ← expectCh ':' cs
  let (s, cs) ← read2 cs
  let cs ← expectCh 'Z' cs
  match cs with
  | [] =>
    let d : Date := ⟨y, mo, dy, h, mi, s⟩
    if validDate d then some d else none
  | _ => none

/-- Embeds `convert_string_to_iso_date` from the source:
`datetime.strptime(date_string, "%Y-%m-%dT%H:%M:%SZ")`, with the
`ValueError` on a non-matching string embedded as `none`. -/
def convert_string_to_iso_date (s : String) : Option Date :=
  parseChars s.data

/-- Renders a value below 100 as exactly two ASCII digit characters. -/
def pad2chars (n : Nat) : List Char :=
  [Char.ofNat (48 + n / 10 % 10), Char.ofNat (48 + n % 10)]

/-- Renders a value below 10000 as exactly four ASCII digit characters. -/
def pad4chars (n : Nat) : List Char :=
  [Char.ofNat (48 + n / 1000 % 10), Char.ofNat (48 + n / 100 % 10),
   Char.ofNat (48 + n / 10 % 10), Char.ofNat (48 + n % 10)]

/-- Modelled from the spec: re-formatting an instant back to the fixed
pattern `YYYY-MM-DDTHH:MM:SSZ` (the source only parses; the spec's
round-trip property applies `strftime` with the same pattern, rendering
each field zero-padded to the pattern's width). -/
def formatChars (d : Date) : List Char :=
  pad4chars d.year ++ '-' :: pad2chars d.month ++ '-' :: pad2chars d.day
    ++ 'T' :: pad2chars d.hour ++ ':' :: pad2chars d.minute
    ++ ':' :: pad2chars d.second ++ ['Z']

/-- Modelled from the spec: string form of the re-formatter. -/
def formatIsoZ (d : Date) : String := String.mk (formatChars d)

/-- A commit Record as read by `get_top_authors`: only the two dict paths
the function touches are kept.  `commitAuthorDate` is
`row['commit']['author']['date']` (`none` models a missing key along the
path, which raises `KeyError` when read); `authorLogin` is
`row['author']['login']` (`none` models a missing key or a `null` author,
both of which raise when read). -/
structure Commit where
  commitAuthorDate : Option String
  authorLogin : Option String
deriving DecidableEq, Repr

/-- A pull-request / issue Record as read by `get_count` and
`get_count_old`: only `created_at` and `state` are touched. -/
structure Row where
  created_at : Option String
  state : Option String
deriving DecidableEq, Repr

/-- Embeds the window-filter list comprehension shared (textually) by
`get_top_authors` and `get_count`:
`[row for row in data if begin <= convert_string_to_iso_date(dateOf(row)) <= end]`.
Rows are scanned left to right; a missing date field raises `KeyError`
and an unparsable date string raises `ValueError`, either of which
escapes the comprehension (no handler inside the aggregators). -/
def filterByDate {α : Type} (dateOf : α → Option String) (k : String)
    (b e : Date) : List α → Except PyError (List α)
  | [] => Except.ok []
  | r :: rs =>
    match dateOf r with
    | none => Except.error (PyError.keyError k)
    | some s =>
      match convert_string_to_iso_date s with
      | none => Except.error PyError.valueError
      | some d =>
        match filterByDate dateOf k b e rs with
        | Except.error err => Except.error err
        | Except.ok rest =>
          if dateLe b d && dateLe d e then Except.ok (r :: rest)
          else Except.ok rest

/-- Input to `get_top_authors` as produced by the JSON decoder: either a
decoded list of commit Records, or an API error object
`{'message': msg, ...}` (a dict). -/
inductive CommitsInput where
  | records (rows : List Commit)
  | errorObj (msg : String)
deriving DecidableEq, Repr

/-- Embeds the author-tally loop of `get_top_authors`
(`dct_authors` insertion / increment, preserving Python dict insertion
order): `if login not in dct: dct[login] = 1 else: dct[login] += 1`. -/
def bump : List (String × Nat) → String → List (String × Nat)
  | [], l => [(l, 1)]
  | (k, v) :: rest, l =>
    if k = l then (k, v + 1) :: rest else (k, v) :: bump rest l

/-- Embeds the `for commit in commits` loop of `get_top_authors`: a commit
whose author login is unreadable raises inside the per-commit `try`, is
skipped, and `write_log` appends the exception text (the Python message
text is abstracted to the missing key name). -/
def tallyLoop : List Commit → List (String × Nat) → List LogOp →
    List (String × Nat) × List LogOp
  | [], dct, ops => (dct, ops)
  | c :: cs, dct, ops =>
    match c.authorLogin with
    | none => tallyLoop cs dct (ops ++ [write_log "login"])
    | some l => tallyLoop cs (bump dct l) ops

/-- Stable insertion of a pair into a count-descending list: the inserted
pair goes in front of the first strictly smaller count and behind every
count greater than or equal to it. -/
def insertDesc (p : String × Nat) : List (String × Nat) → List (String × Nat)
  | [] => [p]
  | q :: qs => if q.2 ≤ p.2 then p :: q :: qs else q :: insertDesc p qs

/-- Stable sort by count, descending: ties keep insertion order, matching
`Counter.most_common`'s stable sort on a Python dict. -/
def sortDesc : List (String × Nat) → List (String × Nat)
  | [] => []
  | p :: ps => insertDesc p (sortDesc ps)

/-- Embeds `Counter(dct_authors).most_common(top_count)`. -/
def most_common (dct : List (String × Nat)) (n : Nat) : List (String × Nat) :=
  List.take n (sortDesc dct)

/-- Embeds `get_top_authors(data, begin, end, top_count)`.  On a list
input the window filter runs first (its exceptions escape the function);
`'message' not in commits` is then always true because the elements of
`commits` are record dicts, never the string `'message'`, so the tally
branch is taken and the ranked `top_authors` table is printed.  On a dict
input (an API error object) the filter comprehension iterates the dict's
string keys and `row['commit']` raises `TypeError` before either
`message` branch can run, so the `Authors not found` print and the
`write_log` of other messages are unreachable.  The value is the list of
(login, count) rows the function prints. -/
def get_top_authors (data : CommitsInput) (b e : Date) (top_count : Nat) :
    Except PyError (List (String × Nat) × List LogOp) :=
  match data with
  | CommitsInput.errorObj _ => Except.error PyError.typeError
  | CommitsInput.records rows =>
    match filterByDate Commit.commitAuthorDate "date" b e rows with
    | Except.error err => Except.error err
    | Except.ok commits =>
      match tallyLoop commits [] [] with
      | (dct, ops) => Except.ok (most_common dct top_count, ops)

/-- The `count_dct = {'open': 0, 'closed': 0}` mapping of `get_count`: it
has exactly the two keys `open` and `closed`, embedded as the two fields. -/
structure StateCount where
  openCount : Nat
  closedCount : Nat
deriving DecidableEq, Repr

/-- Embeds the `for row in data` loop of `get_count`: a row whose `state`
key is missing raises `KeyError` inside the per-row `try` and the handler
writes the exception text with `open('error.log', 'w')` — a truncating
write; a row whose state is some third value matches neither `if` branch
and is passed over with no write at all. -/
def countLoop : List Row → StateCount → List LogOp → StateCount × List LogOp
  | [], sc, ops => (sc, ops)
  | r :: rs, sc, ops =>
    match r.state with
    | none => countLoop rs sc (ops ++ [LogOp.truncateWrite "state"])
    | some s =>
      if s = "open" then countLoop rs ⟨sc.openCount + 1, sc.closedCount⟩ ops
      else if s = "closed" then countLoop rs ⟨sc.openCount, sc.closedCount + 1⟩ ops
      else countLoop rs sc ops

/-- The counting part of `get_count`, applied to the filtered rows. -/
def countStates (data : List Row) : StateCount × List LogOp :=
  countLoop data ⟨0, 0⟩ []

/-- Embeds `get_count(raw_data, begin, end)`: window-filter then count.
Exceptions from the filter comprehension (missing `created_at`,
unparsable date) escape the function. -/
def get_count (raw : List Row) (b e : Date) :
    Except PyError (StateCount × List LogOp) :=
  match filterByDate Row.created_at "created_at" b e raw with
  | Except.error err => Except.error err
  | Except.ok data => Except.ok (countStates data)

/-- Embeds the body of `get_count_old`'s `for row in data` loop.  Python's
`and` short-circuits: `row['state']` is only read when the date condition
holds, so a row with a recent date and no `state` key raises nothing.
`now - datetime.timedelta(days=days_to_old)` is the instant
`toSec now - 86400 * days` on the second-counted timeline. -/
def oldLoop (now : Date) (days : Nat) : List Row → Nat → Except PyError Nat
  | [], acc => Except.ok acc
  | r :: rs, acc =>
    match r.created_at with
    | none => Except.error (PyError.keyError "created_at")
    | some s =>
      match convert_string_to_iso_date s with
      | none => Except.error PyError.valueError
      | some d =>
        if (toSec d : Int) ≤ (toSec now : Int) - 86400 * (days : Int) then
          match r.state with
          | none => Except.error (PyError.keyError "state")
          | some st => oldLoop now days rs (if st = "open" then acc + 1 else acc)
        else oldLoop now days rs acc

/-- Embeds `get_count_old(data, days_to_old)`.  The wall-clock
`datetime.datetime.now()` read at call time is passed explicitly as
`now`.  The whole loop sits in one `try`: on any exception the traceback
is appended to the log by `write_log` and the function returns `None`
(embedded as `none`), otherwise the count. -/
def get_count_old (data : List Row) (days : Nat) (now : Date) :
    Option Nat × List LogOp :=
  match oldLoop now days data 0 with
  | Except.ok n => (some n, [])
  | Except.error _ => (none, [write_log "Traceback (most recent call last)"])

/-- An element of the list `get_data` builds.  A decoded Record is
`record`; `key` is a bare string — what `list.extend(d)` appends when `d`
is a dict (it iterates the dict's keys), which is how an error-object
body from a follow-up page ends up inside the Result Set. -/
inductive Item where
  | record (created_at : Option String) (state : Option String)
  | key (s : String)
deriving DecidableEq, Repr

/-- The decoded JSON body of one HTTP response: a list of Records, or an
error object (a dict, kept as its key list — GitHub error objects are
`{'message': ..., 'documentation_url': ...}`). -/
inductive JsonBody where
  | arr (xs : List Item)
  | obj (keys : List String)
deriving DecidableEq, Repr

/-- One HTTP response as `get_data` reads it: `ok` is `res.ok`, `status`
is `res.status_code`, `url` is `res.url`, `body` is `res.json()` and
`hasNext` is `'next' in res.links.keys()`. -/
structure Response where
  ok : Bool
  status : Nat
  url : String
  body : JsonBody
  hasNext : Bool
deriving DecidableEq, Repr

/-- What `data.extend(res.json())` appends for a follow-up page: the
elements of a list body, or the keys of a dict body (Python's
`list.extend` iterates a dict by its keys). -/
def extendItems : JsonBody → List Item
  | JsonBody.arr xs => xs
  | JsonBody.obj keys => keys.map Item.key

/-- Embeds the `while 'next' in res.links.keys()` loop of `get_data`:
while the current response advertises a next page, the next response in
the chain is fetched and its decoded body is appended.  Neither `res.ok`
nor `res.status_code` of a follow-up response is ever inspected. -/
def followPages : Bool → List Response → List Item
  | false, _ => []
  | true, [] => []
  | true, r :: rs => extendItems r.body ++ followPages r.hasNext rs

/-- The request parameters `get_data` selects from the resource kind
(the last path segment of the URL) and the branch. -/
def req_params (obj branch : String) : List (String × String) :=
  if obj = "commits" then [("state", "all"), ("sha", branch)]
  else if obj = "pulls" then [("state", "all"), ("base", branch)]
  else if obj = "issues" then [("state", "all")]
  else []

/-- How a run of `get_data` ends: `ok` returns the assembled Result Set;
`exit1` is the `sys.exit(1)` taken when the initial response is not ok
(the recorded url and status are those of the failed response). -/
inductive FetchOutcome where
  | ok (items : List Item)
  | exit1 (url : String) (status : Nat)
deriving DecidableEq, Repr

/-- Embeds `get_data(url, branch, username, password)` over an abstract
network: `first` is the response to the initial request and `rest` the
responses returned, in order, for the successive `next` links.  If
`res.ok` fails on the initial response the failed URL and status code are
appended to the Error Log by `write_log(f str)` and the process exits
with code 1; otherwise the initial body starts the Result Set and
pagination is followed with no further status checks. -/
def get_data (first : Response) (rest : List Response) :
    FetchOutcome × List LogOp :=
  if first.ok then
    (FetchOutcome.ok (extendItems first.body ++ followPages first.hasNext rest), [])
  else
    (FetchOutcome.exit1 first.url first.status,
     [write_log (first.url ++ ": " ++ toString first.status ++ "\n")])

theorem digitVal_recon {c : Char} {k : Nat} (h : digitVal c = some k) :
    k ≤ 9 ∧ Char.ofNat (48 + k) = c := by
  unfold digitVal at h
  split at h
  · rename_i hc
    injection h with hk
    subst hk
    refine ⟨by omega, ?_⟩
    have : 48 + (c.toNat - 48) = c.toNat := by omega
    rw [this, Char.ofNat_toNat]
  · exact absurd h (by simp)

theorem read2_split {cs rest : List Char} {v : Nat}
    (h : read2 cs = some (v, rest)) :
    v ≤ 99 ∧ cs = pad2chars v ++ rest := by
  match cs with
  | [] => simp [read2] at h
  | [a] => simp [read2] at h
  | a :: b :: cs0 =>
    have ha : digitVal a = none ∨ ∃ x, digitVal a = some x := by
      cases digitVal a <;> simp
    have hb : digitVal b = none ∨ ∃ y, digitVal b = some y := by
      cases digitVal b <;> simp
    rcases ha with ha | ⟨x, ha⟩ <;> rcases hb with hb | ⟨y, hb⟩ <;>
      simp [read2, ha, hb] at h
    obtain ⟨hv, hrest⟩ := h
    obtain ⟨hx9, hca⟩ := digitVal_recon ha
    obtain ⟨hy9, hcb⟩ := digitVal_recon hb
    subst hrest
    constructor
    · omega
    · have e1 : v / 10 % 10 = x := by omega
      have e2 : v % 10 = y := by omega
      simp [pad2chars, e1, e2, hca, hcb]

theorem read4_split {cs rest : List Char} {v : Nat}
    (h : read4 cs = some (v, rest)) :
    v ≤ 9999 ∧ cs = pad4chars v ++ rest := by
  match cs with
  | [] => simp [read4] at h
  | [a] => simp [read4] at h
  | [a, b] => simp [read4] at h
  | [a, b, c] => simp [read4] at h
  | a :: b :: c :: d :: cs0 =>
    have ha : digitVal a = none ∨ ∃ x, digitVal a = some x := by
      cases digitVal a <;> simp
    have hb : digitVal b = none ∨ ∃ x, digitVal b = some x := by
      cases digitVal b <;> simp
    have hc : digitVal c = none ∨ ∃ x, digitVal c = some x := by
      cases digitVal c <;> simp
    have hd : digitVal d = none ∨ ∃ x, digitVal d = some x := by
      cases digitVal d <;> simp
    rcases ha with ha | ⟨w, ha⟩ <;> rcases hb with hb | ⟨x, hb⟩ <;>
      rcases hc with hc | ⟨y, hc⟩ <;> rcases hd with hd | ⟨z, hd⟩ <;>
      simp [read4, ha, hb, hc, hd] at h
    obtain ⟨hv, hrest⟩ := h
    obtain ⟨hw9, hcw⟩ := digitVal_recon ha
    obtain ⟨hx9, hcx⟩ := digitVal_recon hb
    obtain ⟨hy9, hcy⟩ := digitVal_recon hc
    obtain ⟨hz9, hcz⟩ := digitVal_recon hd
    subst hrest
    constructor
    · omega
    · have e1 : v / 1000 % 10 = w := by omega
      have e2 : v / 100 % 10 = x := by omega
      have e3 : v / 10 % 10 = y := by omega
      have e4 : v % 10 = z := by omega
      simp [pad4chars, e1, e2, e3, e4, hcw, hcx, hcy, hcz]

theorem expectCh_split {c : Char} {cs rest : List Char}
    (h : expectCh c cs = some rest) : cs = c :: rest := by
  match cs with
  | [] => simp [expectCh] at h
  | a :: cs0 =>
    simp only [expectCh] at h
    split at h
    · rename_i hac
      injection h with hr
      rw [hac, hr]
    · exact absurd h (by simp)

theorem parseChars_formatChars {cs : List Char} {d : Date}
    (h : parseChars cs = some d) : formatChars d = cs := by
  simp only [parseChars, Option.bind_eq_bind, Option.bind_eq_some] at h
  obtain ⟨⟨y, cs1⟩, h1, h⟩ := h
  obtain ⟨cs2, h2, h⟩ := h
  obtain ⟨⟨mo, cs3⟩, h3, h⟩ := h
  obtain ⟨cs4, h4, h⟩ := h
  obtain ⟨⟨dy, cs5⟩, h5, h⟩ := h
  obtain ⟨cs6, h6, h⟩ := h
  obtain ⟨⟨hh, cs7⟩, h7, h⟩ := h
  obtain ⟨cs8, h8, h⟩ := h
  obtain ⟨⟨mi, cs9⟩, h9, h⟩ := h
  obtain ⟨cs10, h10, h⟩ := h
  obtain ⟨⟨ss, cs11⟩, h11, h⟩ := h
  obtain ⟨cs12, h12, h⟩ := h
  match cs12 with
  | _ :: _ => simp at h
  | [] =>
    simp only at h
    split at h
    · injection h with hd
      obtain ⟨-, e1⟩ := read4_split h1
      have e2 := expectCh_split h2
      obtain ⟨-, e3⟩ := read2_split h3
      have e4 := expectCh_split h4
      obtain ⟨-, e5⟩ := read2_split h5
      have e6 := expectCh_split h6
      obtain ⟨-, e7⟩ := read2_split h7
      have e8 := expectCh_split h8
      obtain ⟨-, e9⟩ := read2_split h9
      have e10 := expectCh_split h10
      obtain ⟨-, e11⟩ := read2_split h11
      have e12 := expectCh_split h12
      subst e1 e2 e3 e4 e5 e6 e7 e8 e9 e10 e11 e12
      rw [← hd]
      simp [formatChars]
    · exact absurd h (by simp)

/-- C5: for every timestamp string matching the fixed pattern
`YYYY-MM-DDTHH:MM:SSZ` (exactly the strings the Date Normalizer parses),
parsing with `convert_string_to_iso_date` and re-formatting the resulting
instant back to the pattern yields the original string. -/
theorem c5_normalize_format_roundtrip (s : String) (d : Date)
    (h : convert_string_to_iso_date s = some d) : formatIsoZ d = s := by
  have hf := parseChars_formatChars (h : parseChars s.data = some d)
  cases s with
  | mk data =>
    rw [formatIsoZ, hf]

/-- Concrete instance of the C5 round-trip at `2020-05-25T00:00:00Z`. -/
theorem c5_roundtrip_witness :
    convert_string_to_iso_date "2020-05-25T00:00:00Z" =
        some ⟨2020, 5, 25, 0, 0, 0⟩ ∧
      formatIsoZ ⟨2020, 5, 25, 0, 0, 0⟩ = "2020-05-25T00:00:00Z" :=
  ⟨by decide, c5_normalize_format_roundtrip _ _ (by decide)⟩

theorem filterByDate_mem {α : Type} {dateOf : α → Option String} {k : String}
    {b e : Date} {xs ys : List α}
    (h : filterByDate dateOf k b e xs = Except.ok ys) :
    ∀ r ∈ ys, r ∈ xs ∧ ∃ s d, dateOf r = some s ∧
      convert_string_to_iso_date s = some d ∧
      dateLe b d = true ∧ dateLe d e = true := by
  induction xs generalizing ys with
  | nil =>
    simp only [filterByDate] at h
    injection h with h
    subst h
    simp
  | cons r rs ih =>
    match hdo : dateOf r with
    | none => exact absurd h (by simp [filterByDate, hdo])
    | some s =>
      match hcv : convert_string_to_iso_date s with
      | none => exact absurd h (by simp [filterByDate, hdo, hcv])
      | some d =>
        match hrec : filterByDate dateOf k b e rs with
        | Except.error err => exact absurd h (by simp [filterByDate, hdo, hcv, hrec])
        | Except.ok rest =>
          simp only [filterByDate, hdo, hcv, hrec] at h
          have ih1 := ih hrec
          by_cases hc : (dateLe b d && dateLe d e) = true
          · rw [if_pos hc] at h
            injection h with hys
            subst hys
            intro q hq
            rcases List.mem_cons.mp hq with hqr | hq2
            · subst hqr
              refine ⟨List.mem_cons_self _ _, s, d, hdo, hcv, ?_⟩
              simpa using hc
            · obtain ⟨hin, hex⟩ := ih1 q hq2
              exact ⟨List.mem_cons_of_mem _ hin, hex⟩
          · rw [if_neg hc] at h
            injection h with hys
            subst hys
            intro q hq
            obtain ⟨hin, hex⟩ := ih1 q hq
            exact ⟨List.mem_cons_of_mem _ hin, hex⟩

/-- C1: every Record kept by the aggregators' window filter has a
creation timestamp `t` with `begin <= t <= end`, inclusive on both ends;
a Record whose timestamp lies outside the window is not in the filtered
list, and both aggregators compute their results from the filtered list
alone (`get_count` tallies `countStates` of it; `get_top_authors` tallies
`tallyLoop` of it), so no out-of-window Record contributes to any count
or tally. -/
theorem c1_window_filter_inclusive {α : Type} (dateOf : α → Option String)
    (k : String) (b e : Date) (xs ys : List α)
    (h : filterByDate dateOf k b e xs = Except.ok ys) :
    (∀ r ∈ ys, r ∈ xs ∧ ∃ s d, dateOf r = some s ∧
      convert_string_to_iso_date s = some d ∧
      dateLe b d = true ∧ dateLe d e = true) ∧
    (∀ r ∈ xs, ∀ s d, dateOf r = some s →
      convert_string_to_iso_date s = some d →
      ¬(dateLe b d = true ∧ dateLe d e = true) → r ∉ ys) ∧
    (∀ raw data, filterByDate Row.created_at "created_at" b e raw =
        Except.ok data →
      get_count raw b e = Except.ok (countStates data)) ∧
    (∀ rows commits n, filterByDate Commit.commitAuthorDate "date" b e rows =
        Except.ok commits →
      get_top_authors (CommitsInput.records rows) b e n =
        Except.ok (most_common (tallyLoop commits [] []).1 n,
          (tallyLoop commits [] []).2)) := by
  refine ⟨filterByDate_mem h, ?_, ?_, ?_⟩
  · intro r _ s d hs hd hout hmem
    obtain ⟨-, s2, d2, hs2, hd2, hin1, hin2⟩ := filterByDate_mem h r hmem
    rw [hs] at hs2
    injection hs2 with hss
    subst hss
    rw [hd] at hd2
    injection hd2 with hdd
    subst hdd
    exact hout ⟨hin1, hin2⟩
  · intro raw data hf
    simp [get_count, hf]
  · intro rows commits n hf
    simp [get_top_authors, hf]

/-- Concrete instance of C1: a two-record list where one record lies
inside the window and one outside; the filter keeps exactly the inside
one. -/
theorem c1_window_filter_witness :
    filterByDate Row.created_at "created_at" ⟨2020, 1, 1, 0, 0, 0⟩
        ⟨2020, 12, 31, 0, 0, 0⟩
        [⟨some "2020-05-25T10:00:00Z", some "open"⟩,
         ⟨some "2021-05-25T10:00:00Z", some "open"⟩] =
      Except.ok [⟨some "2020-05-25T10:00:00Z", some "open"⟩] ∧
    (⟨some "2021-05-25T10:00:00Z", some "open"⟩ : Row) ∉
      [(⟨some "2020-05-25T10:00:00Z", some "open"⟩ : Row)] := by
  have h : filterByDate Row.created_at "created_at" ⟨2020, 1, 1, 0, 0, 0⟩
      ⟨2020, 12, 31, 0, 0, 0⟩
      [⟨some "2020-05-25T10:00:00Z", some "open"⟩,
       ⟨some "2021-05-25T10:00:00Z", some "open"⟩] =
      Except.ok [⟨some "2020-05-25T10:00:00Z", some "open"⟩] := by rfl
  refine ⟨h, ?_⟩
  exact (c1_window_filter_inclusive Row.created_at "created_at" _ _ _ _ h).2.1
    ⟨some "2021-05-25T10:00:00Z", some "open"⟩ (by decide)
    "2021-05-25T10:00:00Z" ⟨2021, 5, 25, 10, 0, 0⟩ rfl (by decide) (by decide)

/-- A Record whose state is one of the two expected values. -/
def goodState (r : Row) : Bool :=
  (r.state == some "open") || (r.state == some "closed")

theorem countLoop_spec (data : List Row) (sc : StateCount) (ops : List LogOp) :
    countLoop data sc ops =
      (⟨sc.openCount + data.countP (fun r => r.state == some "open"),
        sc.closedCount + data.countP (fun r => r.state == some "closed")⟩,
       ops ++ List.replicate (data.countP (fun r => r.state.isNone))
         (LogOp.truncateWrite "state")) := by
  induction data generalizing sc ops with
  | nil => simp [countLoop]
  | cons r rs ih =>
    match hs : r.state with
    | none =>
      simp [countLoop, hs, ih, List.countP_cons, List.replicate_succ]
    | some s =>
      by_cases hop : s = "open"
      · subst hop
        simp [countLoop, hs, ih, List.countP_cons]
        omega
      · by_cases hcl : s = "closed"
        · subst hcl
          simp [countLoop, hs, hop, ih, List.countP_cons]
          omega
        · simp [countLoop, hs, hop, hcl, ih, List.countP_cons]

theorem countP_add_of_disjoint {α : Type} (p q : α → Bool)
    (hpq : ∀ a, p a = true → q a = false) (l : List α) :
    l.countP p + l.countP q = l.countP (fun a => p a || q a) := by
  induction l with
  | nil => simp
  | cons a l ih =>
    simp only [List.countP_cons]
    by_cases hp : p a = true
    · have hq := hpq a hp
      simp [hp, hq]
      omega
    · rw [Bool.not_eq_true] at hp
      by_cases hq : q a = true <;> simp [hp, hq] <;> omega

/-- C4: `get_count` returns the mapping with exactly the two keys `open`
and `closed` (the two fields of `StateCount`); their sum is at most the
size of the window-filtered subset, and is strictly below it exactly when
the filtered subset contains a Record whose state is absent or not one of
the two expected values — such Records are excluded from both counts. -/
theorem c4_state_count_sum (raw : List Row) (b e : Date) (sc : StateCount)
    (ops : List LogOp) (h : get_count raw b e = Except.ok (sc, ops)) :
    ∃ data, filterByDate Row.created_at "created_at" b e raw =
        Except.ok data ∧
      sc.openCount + sc.closedCount ≤ data.length ∧
      (sc.openCount + sc.closedCount < data.length ↔
        ∃ r ∈ data, goodState r = false) := by
  match hf : filterByDate Row.created_at "created_at" b e raw with
  | Except.error err =>
    rw [get_count, hf] at h
    exact absurd h (by simp)
  | Except.ok data =>
    rw [get_count, hf] at h
    injection h with h
    have hsc : (countStates data).1 = sc := by rw [h]
    refine ⟨data, rfl, ?_⟩
    have hsum : sc.openCount + sc.closedCount = data.countP goodState := by
      rw [← hsc, countStates, countLoop_spec]
      simpa [goodState] using countP_add_of_disjoint
        (fun r => r.state == some "open") (fun r => r.state == some "closed")
        (by intro a ha; cases hst : a.state <;> simp_all) data
    constructor
    · rw [hsum]
      exact List.countP_le_length _
    · rw [hsum]
      constructor
      · intro hlt
        by_contra hno
        push_neg at hno
        have : ∀ r ∈ data, goodState r = true := by
          intro r hr
          have := hno r hr
          simpa [Bool.not_eq_false] using this
        rw [List.countP_eq_length.mpr this] at hlt
        omega
      · intro ⟨r, hr, hbad⟩ 
        rcases Nat.lt_or_ge (data.countP goodState) data.length with hlt | hge
        · exact hlt
        · exfalso
          have heq : data.countP goodState = data.length :=
            Nat.le_antisymm (List.countP_le_length _) hge
          have := List.countP_eq_length.mp heq r hr
          rw [hbad] at this
          exact Bool.false_ne_true this

/-- Concrete instance of C4: one `open` Record and one `merged` Record in
the window; the counts sum to 1 while the filtered subset has 2 Records,
and strictness is witnessed by the malformed-state Record. -/
theorem c4_state_count_witness :
    ∃ data, filterByDate Row.created_at "created_at" ⟨2020, 1, 1, 0, 0, 0⟩
        ⟨2020, 12, 31, 0, 0, 0⟩
        [⟨some "2020-05-25T10:00:00Z", some "open"⟩,
         ⟨some "2020-06-25T10:00:00Z", some "merged"⟩] = Except.ok data ∧
      (1 : Nat) + 0 ≤ data.length ∧
      ((1 : Nat) + 0 < data.length ↔ ∃ r ∈ data, goodState r = false) :=
  c4_state_count_sum _ _ _ ⟨1, 0⟩ [] (by rfl)

/-- Total number of commits recorded in an author tally. -/
def tallySum (dct : List (String × Nat)) : Nat := (dct.map Prod.snd).sum

theorem bump_sum (dct : List (String × Nat)) (l : String) :
    tallySum (bump dct l) = tallySum dct + 1 := by
  induction dct with
  | nil => simp [bump, tallySum]
  | cons p ps ih =>
    by_cases hk : p.1 = l
    · simp [bump, hk, tallySum]
      omega
    · simp only [bump]
      rw [if_neg (by simpa using hk)]
      simp [tallySum] at ih ⊢
      omega

theorem tallyLoop_spec (cs : List Commit) (dct : List (String × Nat))
    (ops : List LogOp) :
    tallySum (tallyLoop cs dct ops).1 =
        tallySum dct + cs.countP (fun c => c.authorLogin.isSome) ∧
      (tallyLoop cs dct ops).2 = ops ++
        List.replicate (cs.countP (fun c => c.authorLogin.isNone))
          (write_log "login") := by
  induction cs generalizing dct ops with
  | nil => simp [tallyLoop]
  | cons c cs ih =>
    match hl : c.authorLogin with
    | none =>
      have := ih dct (ops ++ [write_log "login"])
      simp only [tallyLoop, hl]
      rw [this.1, this.2]
      simp [List.countP_cons, hl, List.replicate_succ]
    | some l =>
      have := ih (bump dct l) ops
      simp only [tallyLoop, hl]
      rw [this.1, this.2, bump_sum]
      simp [List.countP_cons, hl]
      omega

/-- C2 counterexample: a single Record missing its creation timestamp.
The claim says the aggregator skips it, logs, and completes non-fatally;
in the code the window-filter comprehension reads `row['created_at']`
with no handler inside `get_count`, so the `KeyError` escapes the
aggregator (it is caught only by the top-level handler, which exits 1). -/
theorem c2_missing_timestamp_counterexample :
    get_count [⟨none, some "open"⟩] ⟨2020, 1, 1, 0, 0, 0⟩
        ⟨2020, 12, 31, 0, 0, 0⟩ =
      Except.error (PyError.keyError "created_at") ∧
    ¬∃ res, get_count [⟨none, some "open"⟩] ⟨2020, 1, 1, 0, 0, 0⟩
        ⟨2020, 12, 31, 0, 0, 0⟩ = Except.ok res := by
  refine ⟨rfl, ?_⟩
  rintro ⟨res, hres⟩
  rw [show get_count [⟨none, some "open"⟩] ⟨2020, 1, 1, 0, 0, 0⟩
      ⟨2020, 12, 31, 0, 0, 0⟩ =
    Except.error (PyError.keyError "created_at") from rfl] at hres
  exact Except.noConfusion hres

/-- C2 (amended): a Record whose author information is missing is skipped
by the Top-Author Aggregator with an append-mode log write, and a Record
whose state is missing is skipped by the State Counter with a log write;
both aggregators then complete over the remaining Records.  But a Record
missing its creation timestamp is not skipped: the window filter raises
and the exception escapes the aggregator. -/
theorem c2_missing_fields_amended (rows : List Commit) (b e : Date) (n : Nat)
    (commits : List Commit)
    (hf : filterByDate Commit.commitAuthorDate "date" b e rows =
      Except.ok commits) :
    (∃ res, get_top_authors (CommitsInput.records rows) b e n =
      Except.ok res) ∧
    tallySum (tallyLoop commits [] []).1 =
      commits.countP (fun c => c.authorLogin.isSome) ∧
    (tallyLoop commits [] []).2 =
      List.replicate (commits.countP (fun c => c.authorLogin.isNone))
        (write_log "login") ∧
    (∀ data : List Row,
      (countStates data).1.openCount + (countStates data).1.closedCount =
        data.countP goodState ∧
      (countStates data).2 =
        List.replicate (data.countP (fun r => r.state.isNone))
          (LogOp.truncateWrite "state")) ∧
    (∀ (rest : List Row) (b2 e2 : Date),
      get_count (⟨none, some "open"⟩ :: rest) b2 e2 =
        Except.error (PyError.keyError "created_at")) := by
  refine ⟨?_, ?_, ?_, ?_, ?_⟩
  · refine ⟨(most_common (tallyLoop commits [] []).1 n,
      (tallyLoop commits [] []).2), ?_⟩
    simp [get_top_authors, hf]
  · simpa [tallySum] using (tallyLoop_spec commits [] []).1
  · simpa using (tallyLoop_spec commits [] []).2
  · intro data
    constructor
    · rw [countStates, countLoop_spec]
      simpa [goodState] using countP_add_of_disjoint
        (fun r => r.state == some "open") (fun r => r.state == some "closed")
        (by intro a ha; cases hst : a.state <;> simp_all) data
    · simp [countStates, countLoop_spec]
  · intro rest b2 e2
    rfl

/-- Concrete instance of C2 (amended): one commit with a date but no
author login; the aggregator completes and the tally facts hold. -/
theorem c2_missing_fields_witness :
    (∃ res,
      get_top_authors
        (CommitsInput.records [⟨some "2020-05-25T10:00:00Z", none⟩])
        ⟨2020, 1, 1, 0, 0, 0⟩ ⟨2020, 12, 31, 0, 0, 0⟩ 30 = Except.ok res) ∧
    tallySum (tallyLoop [⟨some "2020-05-25T10:00:00Z", none⟩] [] []).1 =
      List.countP (fun c => c.authorLogin.isSome)
        [(⟨some "2020-05-25T10:00:00Z", none⟩ : Commit)] ∧
    (tallyLoop [⟨some "2020-05-25T10:00:00Z", none⟩] [] []).2 =
      List.replicate
        (List.countP (fun c => c.authorLogin.isNone)
          [(⟨some "2020-05-25T10:00:00Z", none⟩ : Commit)])
        (write_log "login") ∧
    (∀ data : List Row,
      (countStates data).1.openCount + (countStates data).1.closedCount =
        data.countP goodState ∧
      (countStates data).2 =
        List.replicate (data.countP (fun r => r.state.isNone))
          (LogOp.truncateWrite "state")) ∧
    (∀ (rest : List Row) (b2 e2 : Date),
      get_count (⟨none, some "open"⟩ :: rest) b2 e2 =
        Except.error (PyError.keyError "created_at")) :=
  c2_missing_fields_amended [⟨some "2020-05-25T10:00:00Z", none⟩]
    ⟨2020, 1, 1, 0, 0, 0⟩ ⟨2020, 12, 31, 0, 0, 0⟩ 30
    [⟨some "2020-05-25T10:00:00Z", none⟩] (by rfl)

/-- C3: evaluating `get_top_authors` at a "Not Found" error payload (or
any API error object).  The window-filter comprehension iterates the
dict's string keys and `row['commit']` raises `TypeError` before either
`message` branch can run, so the code never prints `Authors not found`
and never logs the message: the exception escapes to the top-level
handler, which exits with code 1. -/
theorem c3_not_found_raises (b e : Date) (n : Nat) (msg : String) :
    get_top_authors (CommitsInput.errorObj msg) b e n =
      Except.error PyError.typeError := rfl

/-- The predicate `get_count_old` counts: the Record's creation instant
parses and is at most `now` minus the threshold in days, and its state
is `open`. -/
def isOldOpen (now : Date) (days : Nat) (r : Row) : Bool :=
  match r.created_at with
  | none => false
  | some s =>
    match convert_string_to_iso_date s with
    | none => false
    | some d =>
      decide ((toSec d : Int) ≤ (toSec now : Int) - 86400 * (days : Int)) &&
        (r.state == some "open")

/-- An open Record created no later than `now` (the claim's reading of
the threshold-0 case). -/
def openCreatedLe (now : Date) (r : Row) : Bool :=
  match r.created_at with
  | none => false
  | some s =>
    match convert_string_to_iso_date s with
    | none => false
    | some d => dateLe d now && (r.state == some "open")

theorem isOldOpen_zero (now : Date) (r : Row) :
    isOldOpen now 0 r = openCreatedLe now r := by
  match hca : r.created_at with
  | none => simp [isOldOpen, openCreatedLe, hca]
  | some s =>
    match hcv : convert_string_to_iso_date s with
    | none => simp [isOldOpen, openCreatedLe, hca, hcv]
    | some d =>
      simp only [isOldOpen, openCreatedLe, hca, hcv]
      have hiff : ((toSec d : Int) ≤ (toSec now : Int) - 86400 * ((0 : Nat) : Int))
          ↔ toSec d ≤ toSec now := by
        push_cast
        omega
      simp [dateLe, hiff]

theorem oldLoop_spec (now : Date) (days : Nat) (data : List Row)
    (acc n : Nat) (h : oldLoop now days data acc = Except.ok n) :
    n = acc + data.countP (isOldOpen now days) := by
  induction data generalizing acc with
  | nil =>
    simp only [oldLoop] at h
    injection h with h
    simp [h]
  | cons r rs ih =>
    match hca : r.created_at with
    | none => exact absurd h (by simp [oldLoop, hca])
    | some s =>
      match hcv : convert_string_to_iso_date s with
      | none => exact absurd h (by simp [oldLoop, hca, hcv])
      | some d =>
        by_cases hcond :
            (toSec d : Int) ≤ (toSec now : Int) - 86400 * (days : Int)
        · match hst : r.state with
          | none => exact absurd h (by simp [oldLoop, hca, hcv, hcond, hst])
          | some st =>
            simp only [oldLoop, hca, hcv, if_pos hcond, hst] at h
            by_cases hop : st = "open"
            · subst hop
              rw [if_pos rfl] at h
              rw [ih _ h]
              simp [List.countP_cons, isOldOpen, hca, hcv, hcond, hst]
              omega
            · rw [if_neg hop] at h
              rw [ih _ h]
              simp [List.countP_cons, isOldOpen, hca, hcv, hcond, hst, hop]
        · simp only [oldLoop, hca, hcv, if_neg hcond] at h
          rw [ih _ h]
          simp [List.countP_cons, isOldOpen, hca, hcv, hcond]

/-- C7: when the Staleness Counter returns a count, it counts exactly the
Records whose state is `open` and whose creation instant is at most
`now` minus the threshold in days; with threshold 0 it counts exactly
the open Records with creation time at most `now`. -/
theorem c7_staleness_counts (data : List Row) (days : Nat) (now : Date)
    (n : Nat) (h : get_count_old data days now = (some n, [])) :
    n = data.countP (isOldOpen now days) ∧
    (days = 0 → n = data.countP (openCreatedLe now)) := by
  have hn : n = data.countP (isOldOpen now days) := by
    match hl : oldLoop now days data 0 with
    | Except.ok m =>
      rw [get_count_old, hl] at h
      injection h with h1 h2
      injection h1 with h1
      rw [← h1]
      simpa using oldLoop_spec now days data 0 m hl
    | Except.error err =>
      rw [get_count_old, hl] at h
      injection h with h1 h2
      exact absurd h1 (by simp)
  refine ⟨hn, ?_⟩
  intro hd0
  subst hd0
  rw [hn]
  exact List.countP_congr (fun r _ => by rw [isOldOpen_zero])

/-- Concrete instance of C7 with threshold 0: of three Records — an old
open one, an old closed one, and one created after `now` — exactly the
first is counted. -/
theorem c7_staleness_witness :
    ((1 : Nat) = List.countP (isOldOpen ⟨2020, 6, 1, 0, 0, 0⟩ 0)
        ([⟨some "2020-05-01T00:00:00Z", some "open"⟩,
          ⟨some "2020-05-02T00:00:00Z", some "closed"⟩,
          ⟨some "2020-07-01T00:00:00Z", some "open"⟩] : List Row)) ∧
    ((0 : Nat) = 0 → (1 : Nat) =
      List.countP (openCreatedLe ⟨2020, 6, 1, 0, 0, 0⟩)
        ([⟨some "2020-05-01T00:00:00Z", some "open"⟩,
          ⟨some "2020-05-02T00:00:00Z", some "closed"⟩,
          ⟨some "2020-07-01T00:00:00Z", some "open"⟩] : List Row)) :=
  c7_staleness_counts
    [⟨some "2020-05-01T00:00:00Z", some "open"⟩,
     ⟨some "2020-05-02T00:00:00Z", some "closed"⟩,
     ⟨some "2020-07-01T00:00:00Z", some "open"⟩]
    0 ⟨2020, 6, 1, 0, 0, 0⟩ 1 (by rfl)

/-- C8: on the three-commit input alice/bob/alice, all dated at the same
instant T0 = 2020-06-01T12:00:00Z, with any Time Window containing T0 and
`top_count = 2`, the Top-Author Aggregator returns the ranked pair list
`[("alice", 2), ("bob", 1)]` (and performs no log writes). -/
theorem c8_top_authors_example (b e : Date)
    (hb : dateLe b ⟨2020, 6, 1, 12, 0, 0⟩ = true)
    (he : dateLe ⟨2020, 6, 1, 12, 0, 0⟩ e = true) :
    get_top_authors (CommitsInput.records
        [⟨some "2020-06-01T12:00:00Z", some "alice"⟩,
         ⟨some "2020-06-01T12:00:00Z", some "bob"⟩,
         ⟨some "2020-06-01T12:00:00Z", some "alice"⟩]) b e 2 =
      Except.ok ([("alice", 2), ("bob", 1)], []) := by
  have hcv : convert_string_to_iso_date "2020-06-01T12:00:00Z" =
      some ⟨2020, 6, 1, 12, 0, 0⟩ := by rfl
  have hf : filterByDate Commit.commitAuthorDate "date" b e
      [⟨some "2020-06-01T12:00:00Z", some "alice"⟩,
       ⟨some "2020-06-01T12:00:00Z", some "bob"⟩,
       ⟨some "2020-06-01T12:00:00Z", some "alice"⟩] =
      Except.ok
        [⟨some "2020-06-01T12:00:00Z", some "alice"⟩,
         ⟨some "2020-06-01T12:00:00Z", some "bob"⟩,
         ⟨some "2020-06-01T12:00:00Z", some "alice"⟩] := by
    simp [filterByDate, hcv, hb, he]
  simp only [get_top_authors, hf]
  rfl

/-- Concrete instance of C8 at the default-like window 2020. -/
theorem c8_top_authors_witness :
    get_top_authors (CommitsInput.records
        [⟨some "2020-06-01T12:00:00Z", some "alice"⟩,
         ⟨some "2020-06-01T12:00:00Z", some "bob"⟩,
         ⟨some "2020-06-01T12:00:00Z", some "alice"⟩])
      ⟨2020, 1, 1, 0, 0, 0⟩ ⟨2020, 12, 31, 23, 59, 59⟩ 2 =
      Except.ok ([("alice", 2), ("bob", 1)], []) :=
  c8_top_authors_example ⟨2020, 1, 1, 0, 0, 0⟩ ⟨2020, 12, 31, 23, 59, 59⟩
    (by decide) (by decide)

/-- C6: when the initial response has a non-success status, `get_data`
appends one entry to the Error Log containing the requested URL and the
status code, and the process exits with code 1 — no Result Set is
returned. -/
theorem c6_fetch_failure_aborts (first : Response) (rest : List Response)
    (h : first.ok = false) :
    get_data first rest =
      (FetchOutcome.exit1 first.url first.status,
       [LogOp.append (first.url ++ ": " ++ toString first.status ++ "\n")]) ∧
    (∃ t, first.url ++ ": " ++ toString first.status ++ "\n" =
      first.url ++ t) ∧
    (∃ u v, first.url ++ ": " ++ toString first.status ++ "\n" =
      u ++ toString first.status ++ v) := by
  refine ⟨?_, ?_, ?_⟩
  · simp [get_data, h, write_log]
  · exact ⟨": " ++ (toString first.status ++ "\n"),
      by rw [String.append_assoc, String.append_assoc]⟩
  · exact ⟨first.url ++ ": ", "\n", rfl⟩

/-- Concrete instance of C6: an HTTP 404 on the initial request. -/
theorem c6_fetch_failure_witness :
    get_data ⟨false, 404, "https://api.github.com/repos/a/b/commits",
        JsonBody.arr [], false⟩ [] =
      (FetchOutcome.exit1 "https://api.github.com/repos/a/b/commits" 404,
       [LogOp.append ("https://api.github.com/repos/a/b/commits" ++ ": " ++
         toString (404 : Nat) ++ "\n")]) ∧
    (∃ t, "https://api.github.com/repos/a/b/commits" ++ ": " ++
        toString (404 : Nat) ++ "\n" =
      "https://api.github.com/repos/a/b/commits" ++ t) ∧
    (∃ u v, "https://api.github.com/repos/a/b/commits" ++ ": " ++
        toString (404 : Nat) ++ "\n" =
      u ++ toString (404 : Nat) ++ v) :=
  c6_fetch_failure_aborts
    ⟨false, 404, "https://api.github.com/repos/a/b/commits",
      JsonBody.arr [], false⟩ [] rfl

theorem followPages_congr (hn : Bool) (rest rest2 : List Response)
    (hb : rest2.map Response.body = rest.map Response.body)
    (hx : rest2.map Response.hasNext = rest.map Response.hasNext) :
    followPages hn rest2 = followPages hn rest := by
  induction rest generalizing rest2 hn with
  | nil =>
    have : rest2 = [] := by simpa using congrArg List.length hb
    subst this
    rfl
  | cons r rs ih =>
    match rest2 with
    | [] => simp at hb
    | r2 :: rs2 =>
      simp only [List.map_cons, List.cons.injEq] at hb hx
      match hn with
      | false => rfl
      | true =>
        simp only [followPages, hb.1, hx.1]
        rw [ih _ _ hb.2 hx.2]

/-- C10: only the first page's response status is ever checked.  When the
initial response is ok, `get_data` performs no log write and returns the
concatenation of all page bodies; the outcome is invariant under changing
the `ok` flag or status code of any follow-up response, and an error
payload returned by a follow-up page is decoded and merged into the
Result Set (as the keys of the error object, which is how `list.extend`
treats a dict). -/
theorem c10_later_pages_unchecked (first : Response) (rest : List Response)
    (h : first.ok = true) :
    (get_data first rest).2 = [] ∧
    get_data first rest =
      (FetchOutcome.ok (extendItems first.body ++
        followPages first.hasNext rest), []) ∧
    (∀ rest2 : List Response,
      rest2.map Response.body = rest.map Response.body →
      rest2.map Response.hasNext = rest.map Response.hasNext →
      get_data first rest2 = get_data first rest) ∧
    followPages true
        [⟨false, 404, "u", JsonBody.obj ["message", "documentation_url"],
          false⟩] =
      [Item.key "message", Item.key "documentation_url"] := by
  refine ⟨by simp [get_data, h], by simp [get_data, h], ?_, rfl⟩
  intro rest2 hb hx
  simp [get_data, h, followPages_congr first.hasNext rest rest2 hb hx]

/-- Concrete instance of C10: a successful first page followed by a
failing second page whose error-object body is merged into the result. -/
theorem c10_later_pages_witness :
    (get_data ⟨true, 200, "u1", JsonBody.arr [Item.record
        (some "2020-05-01T00:00:00Z") (some "open")], true⟩
      [⟨false, 404, "u2", JsonBody.obj ["message"], false⟩]).2 = [] ∧
    get_data ⟨true, 200, "u1", JsonBody.arr [Item.record
        (some "2020-05-01T00:00:00Z") (some "open")], true⟩
      [⟨false, 404, "u2", JsonBody.obj ["message"], false⟩] =
      (FetchOutcome.ok (extendItems (JsonBody.arr [Item.record
          (some "2020-05-01T00:00:00Z") (some "open")]) ++
        followPages true [⟨false, 404, "u2", JsonBody.obj ["message"],
          false⟩]), []) ∧
    (∀ rest2 : List Response,
      rest2.map Response.body =
        List.map Response.body
          [⟨false, 404, "u2", JsonBody.obj ["message"], false⟩] →
      rest2.map Response.hasNext =
        List.map Response.hasNext
          [⟨false, 404, "u2", JsonBody.obj ["message"], false⟩] →
      get_data ⟨true, 200, "u1", JsonBody.arr [Item.record
          (some "2020-05-01T00:00:00Z") (some "open")], true⟩ rest2 =
      get_data ⟨true, 200, "u1", JsonBody.arr [Item.record
          (some "2020-05-01T00:00:00Z") (some "open")], true⟩
        [⟨false, 404, "u2", JsonBody.obj ["message"], false⟩]) ∧
    followPages true
        [⟨false, 404, "u", JsonBody.obj ["message", "documentation_url"],
          false⟩] =
      [Item.key "message", Item.key "documentation_url"] :=
  c10_later_pages_unchecked
    ⟨true, 200, "u1", JsonBody.arr [Item.record
      (some "2020-05-01T00:00:00Z") (some "open")], true⟩
    [⟨false, 404, "u2", JsonBody.obj ["message"], false⟩] rfl

/-- C9 counterexample: a window-contained Record whose state field is
present but not one of the two expected values (here `merged`).  The
claim says processing it writes the anomaly to the Error Log by
truncating; the code's per-row handler only fires on the `KeyError` from
a missing `state` key, so this Record matches neither `if` branch and
nothing at all is written — the returned log-operation list is empty. -/
theorem c9_unexpected_state_no_write :
    get_count [⟨some "2020-05-25T10:00:00Z", some "merged"⟩]
        ⟨2020, 1, 1, 0, 0, 0⟩ ⟨2020, 12, 31, 0, 0, 0⟩ =
      Except.ok (⟨0, 0⟩, []) ∧
    ¬∃ op : LogOp, op ∈
      (countStates [⟨some "2020-05-25T10:00:00Z", some "merged"⟩]).2 := by
  refine ⟨rfl, ?_⟩
  rintro ⟨op, hop⟩
  rw [show (countStates
      [⟨some "2020-05-25T10:00:00Z", some "merged"⟩]).2 = [] from rfl] at hop
  simp at hop

/-- C9 (amended): in the State Counter a Record whose state field is
absent triggers a truncating overwrite of the Error Log (one
`open('error.log', 'w')` write per such Record), while a Record whose
state is present but unexpected is excluded silently with no write; the
truncate mode occurs at exactly that one site — every log operation
produced by the other components (`tallyLoop` of the Top-Author
Aggregator, `get_count_old`, `get_data`, and `write_log` itself) is an
append-mode write. -/
theorem c9_truncate_only_state_counter (data : List Row) :
    ((countStates data).2 =
      List.replicate (data.countP (fun r => r.state.isNone))
        (LogOp.truncateWrite "state")) ∧
    (∀ cs : List Commit, (tallyLoop cs [] []).2 =
      List.replicate (cs.countP (fun c => c.authorLogin.isNone))
        (LogOp.append "login")) ∧
    (∀ (rows : List Row) (days : Nat) (now : Date),
      (get_count_old rows days now).2 = [] ∨
      (get_count_old rows days now).2 =
        [LogOp.append "Traceback (most recent call last)"]) ∧
    (∀ (first : Response) (rest : List Response),
      (get_data first rest).2 = [] ∨
      (get_data first rest).2 =
        [LogOp.append (first.url ++ ": " ++ toString first.status ++ "\n")]) ∧
    (∀ s, write_log s = LogOp.append s) := by
  refine ⟨?_, ?_, ?_, ?_, fun s => rfl⟩
  · simp [countStates, countLoop_spec]
  · intro cs
    simpa [write_log] using (tallyLoop_spec cs [] []).2
  · intro rows days now
    rw [get_count_old]
    match oldLoop now days rows 0 with
    | Except.ok m => left; rfl
    | Except.error err => right; rfl
  · intro first rest
    rw [get_data]
    by_cases h : first.ok = true
    · left
      rw [if_pos h]
    · right
      rw [if_neg h]
      rfl
